import Mathlib

/- Shallow embedding of the SafeURL core of the typesafe-url repository
   (src/utils/safe-url.ts, latest evolution: the version with segment and
   certain-hash support), together with the pieces of its collaborators
   (errors.ts, object.ts) and of the platform URL primitive that the
   verified claims depend on.  Strings are modelled as Lean strings
   (lists of characters); JavaScript objects as insertion-ordered
   association lists. -/

/-- Name characters of SEGMENT_REGEXPS.keys, the regex
    (slash, colon, one or more characters from the class excluding
    backslash, question mark, hash and slash, then a terminator). -/
def isSegNameChar (c : Char) : Bool :=
  if c = '\\' ∨ c = '?' ∨ c = '#' ∨ c = '/' then false else true

/-- Line terminators, which a dot does not match in a JavaScript regex
    without the s flag. -/
def isLineTerm (c : Char) : Bool :=
  if c = '\n' ∨ c = '\r' ∨ c.toNat = 8232 ∨ c.toNat = 8233 then true else false

/-- State of the left-to-right scanner embedding
    route.matchAll(SEGMENT_REGEXPS.keys): either between candidates,
    after a slash that may start a match, or inside a candidate name
    (characters accumulated in reverse). -/
inductive ScanState where
  | idle : ScanState
  | sawSlash : ScanState
  | inName : List Char → ScanState

/-- The matchAll scan of SEGMENT_REGEXPS.keys.  A match is a slash, a
    colon, a maximal non-empty run of name characters, then one of
    slash, hash, question mark (consumed by the match, so it cannot
    begin the next match) or end of input (zero-width).  A run cut
    short by a backslash is not a match, and since neither the colon
    nor the name characters contain a slash, the scan then resumes in
    the idle state. -/
def segRun : ScanState → List Char → List String
  | .idle, [] => []
  | .sawSlash, [] => []
  | .inName acc, [] => if acc = [] then [] else [String.mk acc.reverse]
  | .idle, c :: cs => segRun (if c = '/' then .sawSlash else .idle) cs
  | .sawSlash, c :: cs =>
      segRun (if c = ':' then .inName [] else if c = '/' then .sawSlash else .idle) cs
  | .inName acc, c :: cs =>
      if isSegNameChar c then segRun (.inName (c :: acc)) cs
      else if acc = [] then segRun (if c = '/' then .sawSlash else .idle) cs
      else if c = '/' ∨ c = '#' ∨ c = '?' then String.mk acc.reverse :: segRun .idle cs
      else segRun .idle cs

/-- segmentKeys_ as computed in the constructor: the first capture
    group of every match of SEGMENT_REGEXPS.keys over the route (every
    match array has three entries, so every match contributes). -/
def segmentKeysOf (r : String) : List String := segRun .idle r.data

/-- HASH_REGEXPS.anyHash: the route ends in a hash sign followed by an
    asterisk. -/
def anyHashTest (r : String) : Bool :=
  match r.data.reverse with
  | c :: d :: _ => if c = '*' ∧ d = '#' then true else false
  | _ => false

/-- Helper for HASH_REGEXPS.certainHash: leftmost occurrence of a hash
    sign followed by an opening angle bracket whose remainder (the
    capture group, matched by a greedy dot-star) contains no line
    terminator; returns that remainder. -/
def findHashLt : List Char → Option (List Char)
  | [] => none
  | c :: rest =>
    if c = '#' then
      match rest with
      | [] => none
      | d :: rest2 =>
        if d = '<' ∧ rest2.all (fun x => !(isLineTerm x)) then some rest2
        else findHashLt rest
    else findHashLt rest

/-- HASH_REGEXPS.certainHash match: the route must end in a closing
    angle bracket, and somewhere before it a hash sign directly
    followed by an opening angle bracket; the capture group is
    everything in between (greedy, so up to the final character). -/
def certainGroup (r : String) : Option (List Char) :=
  match r.data.getLast? with
  | some c => if c = '>' then findHashLt r.data.dropLast else none
  | none => none

/-- certainHash.test. -/
def certainHashTest (r : String) : Bool := (certainGroup r).isSome

/-- HASH_REGEXPS.staticHash: some hash sign followed by one character
    that is neither a backslash nor an asterisk, with the rest of the
    input free of line terminators (the trailing greedy dot-star must
    reach the end anchor).  Note a bare trailing hash sign does NOT
    match: the class requires one character after the hash sign. -/
def staticScan : List Char → Bool
  | [] => false
  | c :: rest =>
    if c = '#' then
      match rest with
      | [] => false
      | d :: rest2 =>
        if ¬ d = '\\' ∧ ¬ d = '*' ∧ rest2.all (fun x => !(isLineTerm x)) then true
        else staticScan rest
    else staticScan rest

/-- staticHash.test. -/
def staticHashTest (r : String) : Bool := staticScan r.data

/-- JavaScript String.prototype.split with a one-character separator
    and no limit. -/
def splitOnChar (sep : Char) : List Char → List (List Char)
  | [] => [[]]
  | c :: cs =>
    let r := splitOnChar sep cs
    if c = sep then [] :: r
    else
      match r with
      | h :: t => (c :: h) :: t
      | [] => [[c]]

/-- route.match(HASH_REGEXPS.certainHash)?.[1]?.split('|') ?? [] . -/
def certainValuesOf (r : String) : List String :=
  match certainGroup r with
  | some g => (splitOnChar '|' g).map String.mk
  | none => []

/-- Hexadecimal digit (upper case) of a value below sixteen, as used by
    URL percent-encoding. -/
def hexDigit (n : Nat) : Char :=
  if n < 10 then Char.ofNat (48 + n) else Char.ofNat (55 + n)

/-- UTF-8 bytes of a character (the platform URL primitive
    percent-encodes the UTF-8 encoding of a code point). -/
def utf8Bytes (c : Char) : List Nat :=
  let n := c.toNat
  if n < 128 then [n]
  else if n < 2048 then [192 + n / 64, 128 + n % 64]
  else if n < 65536 then [224 + n / 4096, 128 + (n / 64) % 64, 128 + n % 64]
  else [240 + n / 262144, 128 + (n / 4096) % 64, 128 + (n / 64) % 64, 128 + n % 64]

/-- Percent-encoding of one character. -/
def percentEncodeChar (c : Char) : List Char :=
  (utf8Bytes c).foldr (fun b acc => '%' :: hexDigit (b / 16) :: hexDigit (b % 16) :: acc) []

/-- Membership in the WHATWG fragment percent-encode set: C0 controls,
    code points above tilde, space, double quote, the two angle
    brackets and the backtick. -/
def needsFragmentEnc (c : Char) : Bool :=
  if c.toNat < 32 ∨ c.toNat > 126 ∨ c = ' ' ∨ c = '"' ∨ c = '<' ∨ c = '>' ∨ c = '`' then true
  else false

/-- Percent-encode a string with the fragment encode set (model of what
    the platform URL primitive stores as the fragment). -/
def encodeFragment (s : String) : String :=
  String.mk ((s.data.map (fun c => if needsFragmentEnc c then percentEncodeChar c else [c])).flatten)

/-- Membership in the WHATWG userinfo percent-encode set (the fragment
    set plus hash, question mark, both curly braces, slash, colon,
    semicolon, equals, at, both square brackets, backslash, caret and
    vertical bar). -/
def needsUserinfoEnc (c : Char) : Bool :=
  if needsFragmentEnc c = true ∨ c = '#' ∨ c = '?' ∨ c = '\x7b' ∨ c = '\x7d' ∨ c = '/' ∨
      c = ':' ∨ c = ';' ∨ c = '=' ∨ c = '@' ∨ c = '[' ∨ c = '\\' ∨ c = ']' ∨ c = '^' ∨
      c = '|' then true
  else false

/-- Model of the platform URL username and password setters: the given
    value is stored percent-encoded with the userinfo encode set. -/
def encodeUserinfo (s : String) : String :=
  String.mk ((s.data.map (fun c => if needsUserinfoEnc c then percentEncodeChar c else [c])).flatten)

/-- Model of the platform URL hash setter followed by the hash getter:
    an empty value (or a lone hash sign, after stripping one leading
    hash sign) stores an empty fragment and reads back as the empty
    string; otherwise the getter returns a hash sign followed by the
    fragment-percent-encoded stripped value. -/
def setHashValue (v : String) : String :=
  if v = "" then ""
  else
    let stripped := match v.data with
      | '#' :: rest => rest
      | l => l
    if stripped = [] then "" else String.mk ('#' :: (encodeFragment (String.mk stripped)).data)

/-- Model of the platform URL parser's hash result for a route resolved
    against a base: the fragment comes from the part of the route after
    its first hash sign (a base's fragment never survives resolution of
    a non-empty route), stored percent-encoded; the getter returns the
    empty string for an absent or empty fragment. -/
def parsedHashOfRoute (r : String) : String :=
  match r.data.dropWhile (fun c => ¬ c = '#') with
  | [] => ""
  | _ :: frag => if frag = [] then "" else String.mk ('#' :: (encodeFragment (String.mk frag)).data)

/-- Insertion-ordered association lists embed plain JavaScript objects
    with string keys (segment values are strings; a numeric value
    occurs in the source only through template-literal stringification,
    so it is represented by its decimal string). -/
def objSet : List (String × String) → String → String → List (String × String)
  | [], k, v => [(k, v)]
  | (k', v') :: rest, k, v =>
    if k' = k then (k', v) :: rest else (k', v') :: objSet rest k v

/-- Object spread of b over a, preserving a's key order and appending
    b's new keys in order, as JavaScript spread does for string keys. -/
def objMerge (a b : List (String × String)) : List (String × String) :=
  b.foldl (fun acc kv => objSet acc kv.1 kv.2) a

/-- Object.keys. -/
def objKeys (o : List (String × String)) : List String := o.map Prod.fst

/-- Property read, none for a missing key (JavaScript undefined). -/
def objGet : List (String × String) → String → Option String
  | [], _ => none
  | (k', v') :: rest, k => if k' = k then some v' else objGet rest k

/-- Template-literal rendering of segments[key]: a missing key is
    undefined and renders as the text "undefined". -/
def jsRender (o : Option String) : String :=
  match o with
  | some v => v
  | none => "undefined"

/-- If the first argument is a literal leading chunk of the second,
    return the remainder. -/
def dropChunk : List Char → List Char → Option (List Char)
  | [], l => some l
  | _ :: _, [] => none
  | p :: ps, c :: cs => if c = p then dropChunk ps cs else none

/-- Scan embedding the non-global replace in setSegments with pattern
    slash, colon, the key (interpolated literally; exact whenever the
    key contains no regex metacharacters, which holds for every key
    appearing in the theorems below), then a terminator as in the
    segment-key regex.  Only the leftmost match is replaced; the
    replacement keeps the terminator (the second capture group) and the
    rest of the string. -/
def replaceSeg (key v : List Char) : List Char → List Char
  | [] => []
  | c :: cs =>
    if c = '/' then
      match cs with
      | ':' :: rest =>
        match dropChunk key rest with
        | some after =>
          (match after with
           | [] => '/' :: v
           | t :: _ =>
             if t = '/' ∨ t = '#' ∨ t = '?' then '/' :: (v ++ after)
             else c :: replaceSeg key v cs)
        | none => c :: replaceSeg key v cs
      | _ => c :: replaceSeg key v cs
    else c :: replaceSeg key v cs

/-- The final replace of setSegments: delete the leftmost suffix that
    starts with a hash sign or question mark preceded (lookbehind) by a
    slash and a run free of hash signs, backslashes and question marks,
    provided the rest of the input holds no line terminator (the
    trailing greedy dot-star must reach the end anchor).  The boolean
    carries whether the lookbehind holds before the current position. -/
def stripTail (ok : Bool) : List Char → List Char
  | [] => []
  | c :: cs =>
    if (c = '#' ∨ c = '?') ∧ ok = true ∧ cs.all (fun x => !(isLineTerm x)) then []
    else
      c :: stripTail
        (if c = '/' then true else if c = '#' ∨ c = '?' ∨ c = '\\' then false else ok) cs

/-- One substitution step of setSegments (see replaceSeg). -/
def replaceSegment (p : String) (key : String) (v : Option String) : String :=
  String.mk (replaceSeg key.data (jsRender v).data p.data)

/-- The trailing query-or-hash strip of setSegments (see stripTail). -/
def stripTrailing (p : String) : String := String.mk (stripTail false p.data)

/-- The error values thrown through throw_, with their exact messages
    (Error for credentials, TypeError for the rest; the distinction is
    not observable through the claims, which only inspect messages). -/
inductive Err where
  | invalidCredentials : Err
  | hashNotAllowed : Err
  | hashNotMutable : Err
  | hashNotInCertainSet : Err
  | segmentsNotAllowed : Err
  | segmentKeyUnknown : Err
deriving DecidableEq

/-- The message carried by each error value, exactly as in the source. -/
def Err.message : Err → String
  | .invalidCredentials => "Invalid credentials"
  | .hashNotAllowed => "Route does not allow hash property"
  | .hashNotMutable => "Hash value is not mutable"
  | .hashNotInCertainSet => "Hash value does not match to certain ones"
  | .segmentsNotAllowed => "Route does not allow segment properties"
  | .segmentKeyUnknown => "Segment key does not match to certain ones"

/-- Construction failures: either the platform parser's own error
    (propagated by the current constructor, which has no try/catch) or
    a core error routed through throw_. -/
inductive CtorErr where
  | parseErr : String → CtorErr
  | safeErr : Err → CtorErr
deriving DecidableEq

/-- The message of a construction failure. -/
def ctorErrMessage : CtorErr → String
  | .parseErr m => m
  | .safeErr e => e.message

/-- Decidable equality of results, so that concrete runs can be
    settled by decide. -/
instance exceptDecEq {e a : Type} [DecidableEq e] [DecidableEq a] :
    DecidableEq (Except e a) := fun x y =>
  match x, y with
  | .ok v, .ok w =>
    if h : v = w then .isTrue (by rw [h]) else .isFalse (fun hc => h (by injection hc))
  | .error v, .error w =>
    if h : v = w then .isTrue (by rw [h]) else .isFalse (fun hc => h (by injection hc))
  | .ok _, .error _ => .isFalse (fun hc => Except.noConfusion hc)
  | .error _, .ok _ => .isFalse (fun hc => Except.noConfusion hc)

/-- Rendering of ScopedError from errors.ts for a plain Error argument:
    bracketed scope, space, original message. -/
def scopedMessage (scope original : String) : String :=
  "[" ++ scope ++ "] " ++ original

/-- Rendering of URLError (ScopedError with scope URL). -/
def urlErrorMessage (original : String) : String := scopedMessage "URL" original

/-- The fields of the underlying platform URL value that the claims
    inspect or that the wrapper mutates.  The freezeProperty locks on
    pathname and hash are not represented: no code path of the wrapper
    assigns to a frozen field (pathname is written only when the
    segment-key list is non-empty, hash only under the anyHash or
    certainHash tiers, and the constructor clears the hash before
    freezing), so the locks are unobservable here.  Pass-through fields
    (host, hostname, port, protocol) are kept independent; their
    platform interactions are irrelevant to the claims. -/
structure URLState where
  username : String := ""
  password : String := ""
  hash : String := ""
  pathname : String := ""
  host : String := ""
  hostname : String := ""
  port : String := ""
  protocol : String := ""
deriving DecidableEq

/-- areCredentialsValid from safe-url.ts. -/
def areCredentialsValid (username password : String) : Bool :=
  if (¬ username = "" ∧ ¬ password = "") ∨ (username = "" ∧ password = "") then true
  else false

/-- The SafeURL instance state: the immutable route, the underlying URL
    value, the accumulated segments_ object, the cached segmentKeys_
    list and the immutable strict-mode flag. -/
structure SafeURL where
  route : String
  url : URLState
  segments : List (String × String)
  segmentKeys : List String
  isStrictModeEnabled : Bool
deriving DecidableEq

/-- throw_ followed by return, the pattern used by setHash and
    setSegments: in strict mode the error propagates, otherwise its
    message is logged as a warning (no state effect) and the method
    returns with the instance unchanged. -/
def throwReturn (u : SafeURL) (e : Err) : Except Err SafeURL :=
  if u.isStrictModeEnabled then .error e else .ok u

/-- The constructor, taking the platform parser's result for
    (route, baseUrl) as input (the parser is an external collaborator).
    A parse failure propagates unwrapped before the strict flag
    matters; then credentials of the parsed URL are validated through
    throw_, segment keys are extracted (an empty list freezes the
    pathname), and the hash is cleared unless staticHash matches, then
    frozen unless anyHash or certainHash matches. -/
def mkSafeURL (route : String) (parsed : Except String URLState) (strict : Bool) :
    Except CtorErr SafeURL :=
  match parsed with
  | .error msg => .error (.parseErr msg)
  | .ok url0 =>
    if ¬ areCredentialsValid url0.username url0.password = true ∧ strict = true then
      .error (.safeErr .invalidCredentials)
    else
      .ok { route := route
          , url := if staticHashTest route = true then url0 else { url0 with hash := "" }
          , segments := []
          , segmentKeys := segmentKeysOf route
          , isStrictModeEnabled := strict }

/-- setCredentials.  The source calls throw_ on invalid input but does
    NOT return afterwards, so with strict mode disabled the two
    assignments below still run; the platform setters store the values
    userinfo-percent-encoded. -/
def setCredentials (u : SafeURL) (username password : String) : Except Err SafeURL :=
  if ¬ areCredentialsValid username password = true ∧ u.isStrictModeEnabled = true then
    .error .invalidCredentials
  else
    .ok { u with url := { u.url with username := encodeUserinfo username
                                   , password := encodeUserinfo password } }

/-- getCredentials. -/
def getCredentials (u : SafeURL) : String × String := (u.url.username, u.url.password)

/-- setHash, following the source's branch order: anyHash, then
    certainHash with the includes check, then staticHash, then the
    frozen fallthrough; every failing branch is throw_ then return. -/
def setHash (u : SafeURL) (hash : String) : Except Err SafeURL :=
  if anyHashTest u.route = true then
    .ok { u with url := { u.url with hash := setHashValue hash } }
  else if certainHashTest u.route = true then
    (if (certainValuesOf u.route).contains hash = false then
      throwReturn u .hashNotInCertainSet
    else
      .ok { u with url := { u.url with hash := setHashValue hash } })
  else if staticHashTest u.route = true then throwReturn u .hashNotMutable
  else throwReturn u .hashNotAllowed

/-- getHash. -/
def getHash (u : SafeURL) : String := u.url.hash

/-- areSegmentsValid_: every key of the argument object is one of the
    extracted segment keys (Array.prototype.includes). -/
def areSegmentsValid (u : SafeURL) (segments : List (String × String)) : Bool :=
  (objKeys segments).all (fun k => decide (k ∈ u.segmentKeys))

/-- setSegments: reject when the route has no segment keys, validate
    the argument's keys, merge the argument over the stored segments_
    object, then recompute the pathname from the route by replacing,
    for each key of the MERGED object, the first matching segment
    pattern with the value read from the CURRENT ARGUMENT
    (segments[key], which renders as the text "undefined" for a key
    absent from this call), finally stripping a trailing
    query-or-hash suffix. -/
def setSegments (u : SafeURL) (segments : List (String × String)) : Except Err SafeURL :=
  if u.segmentKeys.length ≤ 0 then throwReturn u .segmentsNotAllowed
  else if areSegmentsValid u segments = false then throwReturn u .segmentKeyUnknown
  else
    let merged := objMerge u.segments segments
    let newPath := stripTrailing ((objKeys merged).foldl
      (fun p key => replaceSegment p key (objGet segments key)) u.route)
    .ok { u with segments := merged, url := { u.url with pathname := newPath } }

/-- getSegments. -/
def getSegments (u : SafeURL) : List (String × String) := u.segments

/-- getPathname. -/
def getPathname (u : SafeURL) : String := u.url.pathname

/-- The pass-through setters (host, hostname, port, protocol). -/
def setHost (u : SafeURL) (v : String) : SafeURL := { u with url := { u.url with host := v } }

/-- See setHost. -/
def setHostname (u : SafeURL) (v : String) : SafeURL :=
  { u with url := { u.url with hostname := v } }

/-- See setHost. -/
def setPort (u : SafeURL) (v : String) : SafeURL := { u with url := { u.url with port := v } }

/-- See setHost. -/
def setProtocol (u : SafeURL) (v : String) : SafeURL :=
  { u with url := { u.url with protocol := v } }

/-- One mutating API call on an instance. -/
inductive Op where
  | opSetHash : String → Op
  | opSetCredentials : String → String → Op
  | opSetSegments : List (String × String) → Op
  | opSetHost : String → Op
  | opSetHostname : String → Op
  | opSetPort : String → Op
  | opSetProtocol : String → Op

/-- Dispatch of one API call. -/
def stepOp (u : SafeURL) : Op → Except Err SafeURL
  | .opSetHash v => setHash u v
  | .opSetCredentials a b => setCredentials u a b
  | .opSetSegments m => setSegments u m
  | .opSetHost v => .ok (setHost u v)
  | .opSetHostname v => .ok (setHostname u v)
  | .opSetPort v => .ok (setPort u v)
  | .opSetProtocol v => .ok (setProtocol u v)

/-- States reachable from an instance by any sequence of successful
    API calls (in non-strict mode no call fails; in strict mode a
    failing call leaves the instance as it was, so reachability over
    successful calls covers every observable state). -/
inductive Reachable : SafeURL → SafeURL → Prop where
  | refl (u : SafeURL) : Reachable u u
  | step (u v w : SafeURL) (op : Op) : Reachable u v → stepOp v op = .ok w → Reachable u w

/-- Written from the claim's words (C6), for comparison with the
    source's extraction: collect the name of EVERY occurrence of a
    slash, colon, non-empty name, boundary (slash, hash, question mark
    or end) — including occurrences whose leading slash is the boundary
    of the previous one, which is why after emitting on a slash the
    scan stays in the sawSlash state instead of consuming it. -/
def claimRun : ScanState → List Char → List String
  | .idle, [] => []
  | .sawSlash, [] => []
  | .inName acc, [] => if acc = [] then [] else [String.mk acc.reverse]
  | .idle, c :: cs => claimRun (if c = '/' then .sawSlash else .idle) cs
  | .sawSlash, c :: cs =>
      claimRun (if c = ':' then .inName [] else if c = '/' then .sawSlash else .idle) cs
  | .inName acc, c :: cs =>
      if isSegNameChar c then claimRun (.inName (c :: acc)) cs
      else if acc = [] then claimRun (if c = '/' then .sawSlash else .idle) cs
      else if c = '/' then String.mk acc.reverse :: claimRun .sawSlash cs
      else if c = '#' ∨ c = '?' then String.mk acc.reverse :: claimRun .idle cs
      else claimRun .idle cs

/-- All segment-name occurrences of a route in appearance order, per
    the claim's words (overlap at a boundary slash allowed). -/
def claimOccurrences (r : String) : List String := claimRun .idle r.data

/-- Order-preserving removal of duplicates, keeping first occurrences. -/
def dedupAux (seen : List String) : List String → List String
  | [] => []
  | x :: xs => if x ∈ seen then dedupAux seen xs else x :: dedupAux (x :: seen) xs

/-- The claim's segment-key set: every occurrence's name, in order of
    appearance, without duplicates. -/
def claimSegmentKeys (r : String) : List String := dedupAux [] (claimOccurrences r)

/-- The simulation relation between the source scan and the claim
    scan: identical states, or the source idle where the claim side
    still holds the boundary slash or has begun a further (overlapping)
    candidate unseen by the source. -/
def StateRel (s t : ScanState) : Prop :=
  s = t ∨ (s = .idle ∧ t = .sawSlash) ∨ (s = .idle ∧ ∃ a, t = .inName a)

/-- Concrete no-hash instance for the C7 witness. -/
def uC7 : SafeURL :=
  { route := "/a/b", url := {}, segments := [], segmentKeys := [], isStrictModeEnabled := true }

/-- Concrete instance for the C9 witness: two segment keys, one foreign
    key supplied. -/
def uC9 : SafeURL :=
  { route := "/:a/x/:b", url := {}, segments := [], segmentKeys := ["a", "b"]
  , isStrictModeEnabled := true }

/-- Parsed URL with a username but no password, for the C10 witness. -/
def urlC10bad : URLState := { username := "user" }

/-- Concrete instance for the C10 witness. -/
def uC10 : SafeURL :=
  { route := "/a/b", url := {}, segments := [], segmentKeys := [], isStrictModeEnabled := true }

/-- Concrete anyValue-route instance for C5. -/
def uC5 : SafeURL :=
  { route := "/a/b#*", url := {}, segments := [], segmentKeys := []
  , isStrictModeEnabled := true }

/-- Concrete non-strict instance for C2. -/
def u2ns : SafeURL :=
  { route := "/a/b", url := {}, segments := [], segmentKeys := []
  , isStrictModeEnabled := false }

/-- Constructed instance for C1. -/
def uC1 : SafeURL :=
  { route := "/:a/x/:b", url := {}, segments := [], segmentKeys := ["a", "b"]
  , isStrictModeEnabled := true }

/-- State after the first setSegments call of C1. -/
def uC1a : SafeURL :=
  { route := "/:a/x/:b", url := { pathname := "/1/x/:b" }, segments := [("a", "1")]
  , segmentKeys := ["a", "b"], isStrictModeEnabled := true }

/-- State after the second setSegments call of C1. -/
def uC1b : SafeURL :=
  { route := "/:a/x/:b", url := { pathname := "/undefined/x/2" }
  , segments := [("a", "1"), ("b", "2")], segmentKeys := ["a", "b"]
  , isStrictModeEnabled := true }

/-- The instance produced by constructing the C3 route over a given
    parsed URL value (the staticHash test succeeds on this route, so
    the parsed hash is kept as is). -/
def mkC3 (url0 : URLState) : SafeURL :=
  { route := "/a/b#<p|q>", url := url0, segments := [], segmentKeys := []
  , isStrictModeEnabled := true }

/-- The parser's output modelled for the C3 witness route. -/
def urlC3 : URLState := { hash := parsedHashOfRoute "/a/b#<p|q>" }

/-- Constructed instance for C4. -/
def uC4 : SafeURL :=
  { route := "https://qwe.com/foo/bar#", url := {}, segments := [], segmentKeys := []
  , isStrictModeEnabled := true }

/-- isSegNameChar excludes the four structural characters. -/
theorem isSegNameChar_spec (c : Char) (h : isSegNameChar c = true) :
    ¬ c = '/' ∧ ¬ c = '#' ∧ ¬ c = '?' ∧ ¬ c = '\\' := by
  unfold isSegNameChar at h
  split at h
  · exact absurd h (by simp)
  · rename_i hcond
    push_neg at hcond
    exact ⟨hcond.2.2.2, hcond.2.2.1, hcond.2.1, hcond.1⟩

/-- Every name emitted by the source scan is also emitted, in the same
    relative order, by the claim scan. -/
theorem segRun_sublist_claimRun (cs : List Char) :
    ∀ s t : ScanState, StateRel s t → List.Sublist (segRun s cs) (claimRun t cs) := by
  induction cs with
  | nil =>
    intro s t h
    rcases h with rfl | ⟨rfl, rfl⟩ | ⟨rfl, a, rfl⟩
    · cases s <;> simp [segRun, claimRun]
    · simp [segRun, claimRun]
    · simp only [segRun, claimRun]
      split <;> simp
  | cons c cs ih =>
    intro s t h
    rcases h with rfl | ⟨rfl, rfl⟩ | ⟨rfl, a, rfl⟩
    · cases s with
      | idle =>
        simp only [segRun, claimRun]
        exact ih _ _ (Or.inl rfl)
      | sawSlash =>
        simp only [segRun, claimRun]
        exact ih _ _ (Or.inl rfl)
      | inName acc =>
        by_cases hn : isSegNameChar c = true
        · simp only [segRun, claimRun, hn, if_true]
          exact ih _ _ (Or.inl rfl)
        · rw [Bool.not_eq_true] at hn
          by_cases ha : acc = []
          · simp only [segRun, claimRun, hn, ha, if_false, if_true, Bool.false_eq_true]
            exact ih _ _ (Or.inl rfl)
          · by_cases hs : c = '/'
            · simp only [segRun, claimRun, hn, ha, hs, Bool.false_eq_true, if_false, if_true,
                true_or, if_pos]
              exact List.Sublist.cons₂ _ (ih _ _ (Or.inr (Or.inl ⟨rfl, rfl⟩)))
            · by_cases hh : c = '#'
              · simp only [segRun, claimRun, hn, ha, hs, hh, Bool.false_eq_true, if_false,
                  if_true, or_true, true_or, or_false, false_or, if_pos]
                exact List.Sublist.cons₂ _ (ih _ _ (Or.inl rfl))
              · by_cases hq : c = '?'
                · simp only [segRun, claimRun, hn, ha, hs, hh, hq, Bool.false_eq_true, if_false,
                    if_true, or_true, true_or, or_false, false_or, if_pos]
                  exact List.Sublist.cons₂ _ (ih _ _ (Or.inl rfl))
                · simp only [segRun, claimRun, hn, ha, hs, hh, hq, Bool.false_eq_true, if_false,
                    or_self, false_or]
                  exact ih _ _ (Or.inl rfl)
    · simp only [segRun, claimRun]
      by_cases hs : c = '/'
      · have : ¬ c = ':' := by rw [hs]; decide
        simp only [hs, this, if_true, if_false]
        exact ih _ _ (Or.inl rfl)
      · by_cases hc : c = ':'
        · simp only [hs, hc, if_true, if_false]
          exact ih _ _ (Or.inr (Or.inr ⟨rfl, [], rfl⟩))
        · simp only [hs, hc, if_false]
          exact ih _ _ (Or.inl rfl)
    · simp only [segRun, claimRun]
      by_cases hn : isSegNameChar c = true
      · have hns := isSegNameChar_spec c hn
        simp only [hn, if_true, hns.1, if_false]
        exact ih _ _ (Or.inr (Or.inr ⟨rfl, c :: a, rfl⟩))
      · rw [Bool.not_eq_true] at hn
        by_cases ha : a = []
        · simp only [hn, ha, Bool.false_eq_true, if_false, if_true]
          exact ih _ _ (Or.inl rfl)
        · by_cases hs : c = '/'
          · simp only [hn, ha, hs, Bool.false_eq_true, if_false, if_true]
            exact List.Sublist.cons _ (ih _ _ (Or.inl rfl))
          · by_cases hh : c = '#'
            · simp only [hn, ha, hs, hh, Bool.false_eq_true, if_false, if_true, true_or,
                false_or, or_false]
              exact List.Sublist.cons _ (ih _ _ (Or.inl rfl))
            · by_cases hq : c = '?'
              · simp only [hn, ha, hs, hh, hq, Bool.false_eq_true, if_false, if_true, or_true,
                  false_or, or_false]
                exact List.Sublist.cons _ (ih _ _ (Or.inl rfl))
              · simp only [hn, ha, hs, hh, hq, Bool.false_eq_true, if_false, or_self, false_or]
                exact ih _ _ (Or.inl rfl)

/-- Every successful API call preserves the immutable instance data:
    the route, the cached segment keys and the strict-mode flag. -/
theorem stepOp_pres (u : SafeURL) (op : Op) (w : SafeURL) (h : stepOp u op = .ok w) :
    w.route = u.route ∧ w.segmentKeys = u.segmentKeys ∧
    w.isStrictModeEnabled = u.isStrictModeEnabled := by
  cases op <;>
    simp only [stepOp, setHash, setCredentials, setSegments, setHost, setHostname, setPort,
      setProtocol, throwReturn] at h <;>
    first
      | (injection h with h2; subst h2; exact ⟨rfl, rfl, rfl⟩)
      | (split_ifs at h <;>
          first
            | exact Except.noConfusion h
            | (injection h with h2; subst h2; exact ⟨rfl, rfl, rfl⟩))

/-- On a route matched by neither anyHash nor certainHash, a successful
    setHash leaves the hash unchanged (it only ever reaches throw_). -/
theorem setHash_hash_pres (u : SafeURL) (v : String) (w : SafeURL)
    (ha : anyHashTest u.route = false) (hc : certainHashTest u.route = false)
    (h : setHash u v = .ok w) : w.url.hash = u.url.hash := by
  unfold setHash throwReturn at h
  simp only [ha, hc, Bool.false_eq_true, if_false] at h
  split_ifs at h <;>
    first
      | exact Except.noConfusion h
      | (injection h with h2; subst h2; rfl)

/-- No API call other than setHash writes the hash, so on a route
    matched by neither anyHash nor certainHash every successful call
    preserves it. -/
theorem stepOp_hash_pres (u : SafeURL) (op : Op) (w : SafeURL)
    (ha : anyHashTest u.route = false) (hc : certainHashTest u.route = false)
    (h : stepOp u op = .ok w) : w.url.hash = u.url.hash := by
  cases op with
  | opSetHash v => exact setHash_hash_pres u v w ha hc h
  | _ =>
    simp only [stepOp, setCredentials, setSegments, setHost, setHostname, setPort,
      setProtocol, throwReturn] at h
    first
      | (injection h with h2; subst h2; rfl)
      | (split_ifs at h <;>
          first
            | exact Except.noConfusion h
            | (injection h with h2; subst h2; rfl))

/-- Reachability preserves the immutable instance data. -/
theorem reachable_pres (u w : SafeURL) (h : Reachable u w) :
    w.route = u.route ∧ w.segmentKeys = u.segmentKeys ∧
    w.isStrictModeEnabled = u.isStrictModeEnabled := by
  induction h with
  | refl => exact ⟨rfl, rfl, rfl⟩
  | step v' w' op hr hs ih =>
    obtain ⟨h1, h2, h3⟩ := stepOp_pres v' op w' hs
    exact ⟨h1.trans ih.1, h2.trans ih.2.1, h3.trans ih.2.2⟩

/-- On a route matched by neither anyHash nor certainHash, the hash
    never changes across any sequence of successful calls. -/
theorem reachable_hash_pres (u w : SafeURL) (h : Reachable u w)
    (ha : anyHashTest u.route = false) (hc : certainHashTest u.route = false) :
    w.url.hash = u.url.hash := by
  induction h with
  | refl => rfl
  | step v' w' op hr hs ih =>
    have hrv := (reachable_pres _ _ hr).1
    have hstep := stepOp_hash_pres v' op w' (by rw [hrv]; exact ha) (by rw [hrv]; exact hc) hs
    exact hstep.trans ih

/-- A route without a hash sign fails the anyHash test. -/
theorem anyHashTest_of_no_hash (r : String) (h : '#' ∉ r.data) : anyHashTest r = false := by
  unfold anyHashTest
  rcases hrev : r.data.reverse with _ | ⟨c, _ | ⟨d, t⟩⟩
  · rfl
  · rfl
  · simp only []
    split_ifs with hcd
    · exfalso
      apply h
      apply List.mem_reverse.mp
      rw [hrev, hcd.2]
      exact List.mem_cons_of_mem _ (List.mem_cons_self _ _)
    · rfl

/-- A list without a hash sign has no certainHash helper match. -/
theorem findHashLt_none (cs : List Char) (h : '#' ∉ cs) : findHashLt cs = none := by
  induction cs with
  | nil => rfl
  | cons c rest ih =>
    have hc : ¬ c = '#' := fun hh => h (hh ▸ List.mem_cons_self _ _)
    unfold findHashLt
    rw [if_neg hc]
    exact ih (fun hm => h (List.mem_cons_of_mem _ hm))

/-- A route without a hash sign fails the certainHash test. -/
theorem certainHashTest_of_no_hash (r : String) (h : '#' ∉ r.data) :
    certainHashTest r = false := by
  unfold certainHashTest certainGroup
  rcases hl : r.data.getLast? with _ | c
  · simp
  · simp only []
    split_ifs with hc
    · rw [findHashLt_none]
      · rfl
      · exact fun hm => h ((List.dropLast_sublist r.data).subset hm)
    · rfl

/-- A list without a hash sign fails the staticHash scan. -/
theorem staticScan_of_no_hash (cs : List Char) (h : '#' ∉ cs) : staticScan cs = false := by
  induction cs with
  | nil => rfl
  | cons c rest ih =>
    have hc : ¬ c = '#' := fun hh => h (hh ▸ List.mem_cons_self _ _)
    unfold staticScan
    rw [if_neg hc]
    exact ih (fun hm => h (List.mem_cons_of_mem _ hm))

/-- Inversion of a successful construction from a parsed URL value. -/
theorem mkSafeURL_ok_inv (route : String) (url0 : URLState) (strict : Bool) (u : SafeURL)
    (h : mkSafeURL route (.ok url0) strict = .ok u) :
    u.route = route ∧ u.segmentKeys = segmentKeysOf route ∧ u.isStrictModeEnabled = strict ∧
    u.url = (if staticHashTest route = true then url0 else { url0 with hash := "" }) ∧
    u.segments = [] := by
  simp only [mkSafeURL] at h
  by_cases hc1 : ¬ areCredentialsValid url0.username url0.password = true ∧ strict = true
  · rw [if_pos hc1] at h
    exact Except.noConfusion h
  · rw [if_neg hc1] at h
    injection h with h2
    subst h2
    exact ⟨rfl, rfl, rfl, rfl, rfl⟩

/-- C7: on a route containing no hash marker, getHash is the empty
    string after construction and stays empty across every sequence of
    successful API calls, and setHash in strict mode always fails with
    the hashNotAllowed error, whose message is exactly the claimed
    one. -/
theorem c7_frozen_hash (route : String) (url0 : URLState) (strict : Bool) (u w : SafeURL)
    (v : String) (hno : '#' ∉ route.data)
    (hmk : mkSafeURL route (.ok url0) strict = .ok u)
    (hreach : Reachable u w) :
    getHash w = "" ∧
    (w.isStrictModeEnabled = true → setHash w v = .error .hashNotAllowed) ∧
    Err.message .hashNotAllowed = "Route does not allow hash property" := by
  obtain ⟨hr, hk, hs, hu, hseg⟩ := mkSafeURL_ok_inv route url0 strict u hmk
  have hstatic : staticHashTest route = false := staticScan_of_no_hash route.data hno
  have hany : anyHashTest route = false := anyHashTest_of_no_hash route hno
  have hcert : certainHashTest route = false := certainHashTest_of_no_hash route hno
  have huhash : u.url.hash = "" := by
    rw [hu, if_neg (by simp [hstatic])]
  have hwroute : w.route = route := (reachable_pres u w hreach).1.trans hr
  have hwhash : w.url.hash = "" := by
    have hp := reachable_hash_pres u w hreach (by rw [hr]; exact hany) (by rw [hr]; exact hcert)
    rw [hp, huhash]
  refine ⟨hwhash, ?_, rfl⟩
  intro hstrict
  unfold setHash
  rw [hwroute]
  simp only [hany, hcert, hstatic, Bool.false_eq_true, if_false]
  unfold throwReturn
  rw [hstrict]
  simp

/-- Witness for C7 at a concrete constructed instance. -/
theorem c7_witness :
    getHash uC7 = "" ∧
    (uC7.isStrictModeEnabled = true → setHash uC7 "x" = .error .hashNotAllowed) ∧
    Err.message .hashNotAllowed = "Route does not allow hash property" :=
  c7_frozen_hash "/a/b" {} true uC7 uC7 "x" (by decide) (by decide) (Reachable.refl uC7)

/-- C9: with a non-empty segment-key list, setSegments with an argument
    whose keys are not all among the extracted keys fails in strict
    mode with the segmentKeyUnknown error (so no state changes: the
    check precedes the merge and the pathname write); the hypothesis is
    exactly the validator's failure and is equivalent to the claim's
    phrasing (some key outside the key set), as the second conjunct
    shows. -/
theorem c9_unknown_key (u : SafeURL) (m : List (String × String))
    (hstrict : u.isStrictModeEnabled = true) (hkeys : ¬ u.segmentKeys = [])
    (hbad : areSegmentsValid u m = false) :
    setSegments u m = .error .segmentKeyUnknown ∧
    (∃ k, k ∈ objKeys m ∧ ¬ k ∈ u.segmentKeys) ∧
    Err.message .segmentKeyUnknown = "Segment key does not match to certain ones" := by
  refine ⟨?_, ?_, rfl⟩
  · have hlen : ¬ u.segmentKeys.length ≤ 0 := by
      simp only [Nat.le_zero, List.length_eq_zero]
      exact hkeys
    unfold setSegments
    rw [if_neg hlen, if_pos hbad]
    unfold throwReturn
    rw [hstrict]
    simp
  · unfold areSegmentsValid at hbad
    obtain ⟨k, hk, hnk⟩ := List.all_eq_false.mp hbad
    exact ⟨k, hk, fun hmem => hnk (by simp [hmem])⟩

/-- Witness for C9 at a concrete instance and argument. -/
theorem c9_witness :
    setSegments uC9 [("c", "1")] = .error .segmentKeyUnknown ∧
    (∃ k, k ∈ objKeys [("c", "1")] ∧ ¬ k ∈ uC9.segmentKeys) ∧
    Err.message .segmentKeyUnknown = "Segment key does not match to certain ones" :=
  c9_unknown_key uC9 [("c", "1")] rfl (by decide) (by decide)

/-- C10: the credential validator accepts exactly the both-empty and
    both-non-empty pairs; strict construction from a parsed URL with
    invalid credentials fails with the invalidCredentials error, as
    does a strict setCredentials call with an invalid pair; valid pairs
    always succeed in both places. -/
theorem c10_credentials (a b : String) (url0 : URLState) (route : String) (u : SafeURL)
    (s : Bool) :
    (areCredentialsValid a b = true ↔ ((a = "" ∧ b = "") ∨ (¬ a = "" ∧ ¬ b = ""))) ∧
    (areCredentialsValid url0.username url0.password = false →
      mkSafeURL route (.ok url0) true = .error (.safeErr .invalidCredentials)) ∧
    (u.isStrictModeEnabled = true → areCredentialsValid a b = false →
      setCredentials u a b = .error .invalidCredentials) ∧
    (areCredentialsValid url0.username url0.password = true →
      mkSafeURL route (.ok url0) s = .ok
        { route := route
        , url := if staticHashTest route = true then url0 else { url0 with hash := "" }
        , segments := []
        , segmentKeys := segmentKeysOf route
        , isStrictModeEnabled := s }) ∧
    (areCredentialsValid a b = true →
      setCredentials u a b = .ok { u with url := { u.url with
          username := encodeUserinfo a, password := encodeUserinfo b } }) ∧
    Err.message .invalidCredentials = "Invalid credentials" := by
  refine ⟨?_, ?_, ?_, ?_, ?_, rfl⟩
  · unfold areCredentialsValid
    split_ifs with hcond <;> simp <;> tauto
  · intro hinv
    simp only [mkSafeURL]
    rw [if_pos ⟨by simp [hinv], by simp⟩]
  · intro hstrict hinv
    unfold setCredentials
    rw [if_pos ⟨by simp [hinv], hstrict⟩]
  · intro hv
    simp only [mkSafeURL]
    rw [if_neg (fun hpair => hpair.1 hv)]
  · intro hv
    unfold setCredentials
    rw [if_neg (fun hpair => hpair.1 hv)]

/-- Witness for C10 at concrete credentials. -/
theorem c10_witness :
    mkSafeURL "/a/b" (.ok urlC10bad) true = .error (.safeErr .invalidCredentials) ∧
    setCredentials uC10 "user" "" = .error .invalidCredentials ∧
    setCredentials uC10 "user" "pw" = .ok { uC10 with url := { uC10.url with
      username := encodeUserinfo "user", password := encodeUserinfo "pw" } } :=
  ⟨(c10_credentials "user" "" urlC10bad "/a/b" uC10 true).2.1 (by decide),
   (c10_credentials "user" "" urlC10bad "/a/b" uC10 true).2.2.1 rfl (by decide),
   (c10_credentials "user" "pw" urlC10bad "/a/b" uC10 true).2.2.2.2.1 (by decide)⟩

/-- C6 counterexample: on the route with two adjacent segments the
    source extracts only the first name, because the match for the
    first consumed the boundary slash of the second; the claim's set
    (every occurrence, deduplicated, in order) has both names. -/
theorem c6_counterexample :
    segmentKeysOf "/:a/:b" = ["a"] ∧
    claimSegmentKeys "/:a/:b" = ["a", "b"] ∧
    ¬ segmentKeysOf "/:a/:b" = claimSegmentKeys "/:a/:b" := by decide

/-- C6 (amended): the extracted key list is sound and order-preserving
    with respect to the claim's occurrence list — every extracted name
    is a genuine non-empty segment occurrence followed by a boundary,
    listed in appearance order — though not complete (overlapping
    occurrences are skipped) and not deduplicated. -/
theorem c6_extraction_sound (r : String) :
    List.Sublist (segmentKeysOf r) (claimOccurrences r) :=
  segRun_sublist_claimRun r.data .idle .idle (Or.inl rfl)

/-- C5 counterexample: on a route ending in the wildcard hash marker,
    setHash with the empty string succeeds but getHash afterwards is
    the empty string, not the claimed lone hash sign. -/
theorem c5_counterexample :
    setHash uC5 "" = .ok uC5 ∧ getHash uC5 = "" ∧ ¬ ("" : String) = "#" := by decide

/-- C5 (amended): on every reachable state of an instance whose route
    passes the anyHash test, setHash never fails (in either mode) and
    getHash afterwards equals the platform hash-setter result: the
    empty string when the value (after stripping one leading hash sign)
    is empty, otherwise a hash sign followed by the fragment-encoded
    stripped value. -/
theorem c5_anyvalue_hash (u w : SafeURL) (v : String)
    (hany : anyHashTest u.route = true) (hreach : Reachable u w) :
    setHash w v = .ok { w with url := { w.url with hash := setHashValue v } } ∧
    getHash { w with url := { w.url with hash := setHashValue v } } = setHashValue v ∧
    (v = "" → setHashValue v = "") := by
  have hwroute : w.route = u.route := (reachable_pres u w hreach).1
  refine ⟨?_, rfl, ?_⟩
  · unfold setHash
    rw [hwroute, if_pos hany]
  · intro hv
    rw [hv]
    decide

/-- Witness for C5 at a concrete instance and value. -/
theorem c5_witness :
    setHash uC5 "x" = .ok { uC5 with url := { uC5.url with hash := setHashValue "x" } } ∧
    getHash { uC5 with url := { uC5.url with hash := setHashValue "x" } } = setHashValue "x" ∧
    ("x" = "" → setHashValue "x" = "") :=
  c5_anyvalue_hash uC5 uC5 "x" (by decide) (Reachable.refl uC5)

/-- C8 counterexample: a parse failure propagates with the parser's own
    message, which is not the bracketed URL-scope rendering the claim
    requires. -/
theorem c8_counterexample :
    mkSafeURL "/foo/bar" (.error "Invalid URL") true = .error (.parseErr "Invalid URL") ∧
    ctorErrMessage (.parseErr "Invalid URL") = "Invalid URL" ∧
    ¬ ctorErrMessage (.parseErr "Invalid URL") = urlErrorMessage "Invalid URL" := by decide

/-- C8 (amended): construction from a rejected route/base pair fails in
    both modes with no instance produced, and the parser's error
    message propagates unchanged — never equal to the URL-scoped
    wrapping that the earlier evolution produced. -/
theorem c8_parse_propagates (route m : String) (s : Bool) :
    mkSafeURL route (.error m) s = .error (.parseErr m) ∧
    ctorErrMessage (.parseErr m) = m ∧
    ¬ urlErrorMessage m = m := by
  refine ⟨rfl, rfl, fun h => ?_⟩
  have hlen : ('[' :: 'U' :: 'R' :: 'L' :: ']' :: ' ' :: m.data).length = m.data.length := by
    have hd : (urlErrorMessage m).data = '[' :: 'U' :: 'R' :: 'L' :: ']' :: ' ' :: m.data := rfl
    rw [← hd, h]
  simp only [List.length_cons] at hlen
  omega

/-- C2 counterexample: with strict mode disabled an invalid
    setCredentials call does not throw, but the username and password
    ARE overwritten (the source lacks a return after throw_ there), so
    the targeted field is not left at its pre-call value. -/
theorem c2_counterexample :
    areCredentialsValid "u" "" = false ∧
    setCredentials u2ns "u" "" = .ok { u2ns with url := { u2ns.url with
        username := "u", password := "" } } ∧
    ¬ getCredentials { u2ns with url := { u2ns.url with username := "u", password := "" } }
        = getCredentials u2ns := by decide

/-- C2 (amended): with strict mode disabled no core-detected violation
    throws; a failing setHash (certain-set miss, immutable or
    disallowed hash) and a failing setSegments (no keys, or an unknown
    key) return with the instance unchanged, while a failing
    setCredentials still assigns both supplied values. -/
theorem c2_nonstrict_behaviour (u : SafeURL) (hs : u.isStrictModeEnabled = false) :
    (∀ a b, areCredentialsValid a b = false →
      setCredentials u a b = .ok { u with url := { u.url with
          username := encodeUserinfo a, password := encodeUserinfo b } }) ∧
    (∀ v, anyHashTest u.route = false → certainHashTest u.route = false →
      setHash u v = .ok u) ∧
    (∀ v, anyHashTest u.route = false → certainHashTest u.route = true →
      (certainValuesOf u.route).contains v = false →
      setHash u v = .ok u) ∧
    (∀ m, u.segmentKeys = [] → setSegments u m = .ok u) ∧
    (∀ m, ¬ u.segmentKeys = [] → areSegmentsValid u m = false →
      setSegments u m = .ok u) := by
  refine ⟨?_, ?_, ?_, ?_, ?_⟩
  · intro a b hinv
    unfold setCredentials
    rw [if_neg (fun hpair => by rw [hs] at hpair; exact absurd hpair.2 (by simp))]
  · intro v hany hcert
    simp [setHash, throwReturn, hany, hcert, hs]
  · intro v hany hcert hvals
    unfold setHash
    rw [if_neg (by simp [hany]), if_pos hcert, if_pos hvals]
    simp [throwReturn, hs]
  · intro m hk
    unfold setSegments
    rw [if_pos (by simp [hk])]
    simp [throwReturn, hs]
  · intro m hk hbad
    unfold setSegments
    rw [if_neg (by simp [Nat.le_zero, List.length_eq_zero, hk]), if_pos hbad]
    simp [throwReturn, hs]

/-- Witness for C2 at a concrete non-strict instance. -/
theorem c2_witness : setSegments u2ns [("x", "1")] = .ok u2ns :=
  (c2_nonstrict_behaviour u2ns rfl).2.2.2.1 [("x", "1")] rfl

/-- C1 (code-bug evaluation): two merging setSegments calls with keys
    inside the key set both succeed, the stored mapping holds both
    values, but the recomputed pathname reads values from the CURRENT
    argument only, so the key of the first call renders as the text
    "undefined" instead of its stored value — not the substitution the
    claim (and the spec's own example) requires. -/
theorem c1_code_eval :
    mkSafeURL "/:a/x/:b" (.ok {}) true = .ok uC1 ∧
    setSegments uC1 [("a", "1")] = .ok uC1a ∧
    setSegments uC1a [("b", "2")] = .ok uC1b ∧
    getPathname uC1b = "/undefined/x/2" ∧
    getSegments uC1b = [("a", "1"), ("b", "2")] ∧
    ¬ getPathname uC1b = "/1/x/2" := by decide

/-- C3 (code-bug evaluation): on the certain-set route the staticHash
    regex also matches (hash sign followed by an opening angle
    bracket), so the constructor keeps whatever non-empty hash the
    parser produced; a failed setHash then leaves getHash non-empty,
    while the claim (and the repository's own test) expects the empty
    string. -/
theorem c3_code_eval (url0 : URLState)
    (hcred : areCredentialsValid url0.username url0.password = true)
    (hhash : ¬ url0.hash = "") :
    mkSafeURL "/a/b#<p|q>" (.ok url0) true = .ok (mkC3 url0) ∧
    ¬ getHash (mkC3 url0) = "" ∧
    setHash (mkC3 url0) "r" = .error .hashNotInCertainSet ∧
    Err.message .hashNotInCertainSet = "Hash value does not match to certain ones" := by
  refine ⟨?_, hhash, ?_, rfl⟩
  · simp only [mkSafeURL]
    rw [if_neg (fun hpair => hpair.1 hcred), if_pos (by decide)]
    rfl
  · unfold setHash
    rw [show (mkC3 url0).route = "/a/b#<p|q>" from rfl]
    rw [if_neg (by decide), if_pos (by decide), if_pos (by decide)]
    rfl

/-- Witness for C3 at the modelled parser output (the parsed fragment
    percent-encodes the angle brackets and is non-empty). -/
theorem c3_witness :
    mkSafeURL "/a/b#<p|q>" (.ok urlC3) true = .ok (mkC3 urlC3) ∧
    ¬ getHash (mkC3 urlC3) = "" ∧
    setHash (mkC3 urlC3) "r" = .error .hashNotInCertainSet ∧
    Err.message .hashNotInCertainSet = "Hash value does not match to certain ones" :=
  c3_code_eval urlC3 (by decide) (by decide)

/-- C4 (code-bug evaluation): a bare trailing hash sign matches none of
    the three hash regexes, so setHash falls through to the frozen-tier
    error instead of the immutability error the claim (and the
    repository's own test) expects. -/
theorem c4_code_eval :
    mkSafeURL "https://qwe.com/foo/bar#" (.ok {}) true = .ok uC4 ∧
    getHash uC4 = "" ∧
    setHash uC4 "qwe" = .error .hashNotAllowed ∧
    ¬ setHash uC4 "qwe" = .error .hashNotMutable ∧
    Err.message .hashNotAllowed = "Route does not allow hash property" ∧
    Err.message .hashNotMutable = "Hash value is not mutable" := by decide
